import Mathlib

/-!
Verification development for the eris-lavalink repository.

The definitions below are a shallow embedding, in Lean, of the TypeScript
sources `src/Lavalink.ts`, `src/Player.ts` and `src/PlayerManager.ts`.
JavaScript numbers that only ever hold integers are modelled as `Int`
(so that expressions such as `this.retries - 1` can go negative, exactly
as in JavaScript); CPU load fractions are modelled as `Rat`.  Timers
(`setTimeout`) are modelled by recording the armed delay in the state;
`process.nextTick` callbacks are modelled as pending-tick counters that
an explicit `tick` action consumes.  All state mutation is explicit
state passing.
-/

namespace ErisLavalink

/-! ## Lavalink node reconnect machinery (`src/Lavalink.ts`) -/

/-- Embeds `Lavalink.retryInterval`:
`let retries = Math.min(this.retries-1, 5); return Math.pow(retries + 5, 2) * 1000;`.
The argument is the value of `this.retries` at call time. -/
def retryInterval (retries : Int) : Int :=
  (min (retries - 1) 5 + 5) ^ 2 * 1000

/-- The reconnect-relevant state of a `Lavalink` instance.
`reconnectInterval` records the delay (in ms) that the currently armed
reconnect timer was created with (`none` when no timer is armed, matching
the `null` handle in the source). -/
structure LavalinkConn where
  connected : Bool
  retries : Int
  reconnectInterval : Option Int
  reconnectTimeout : Int
deriving DecidableEq, Repr

/-- State of a `Lavalink` node right after its constructor ran and the first
`connect()` succeeded (`ready()` reset `retries` to 0 and cleared any timer).
`timeout` is `options.timeout || 5000`. -/
def connectedConn (timeout : Int) : LavalinkConn :=
  { connected := true, retries := 0, reconnectInterval := none, reconnectTimeout := timeout }

/-- Embeds `Lavalink.disconnected()` (the `close` handler): marks the node
disconnected; if no reconnect timer is armed, emits `disconnect` (second
component) and arms a timer with delay `this.reconnectTimeout`. -/
def disconnected (s : LavalinkConn) : LavalinkConn × Bool :=
  let s := { s with connected := false }
  match s.reconnectInterval with
  | some _ => (s, false)
  | none => ({ s with reconnectInterval := some s.reconnectTimeout }, true)

/-- Embeds `Lavalink.reconnect()` (runs when the armed timer fires): computes
`retryInterval()` from the current retry count, arms the next timer with that
delay, increments `this.retries`, and redials via `connect()`.  The second
component is the delay the new timer was armed with. -/
def reconnect (s : LavalinkConn) : LavalinkConn × Int :=
  let interval := retryInterval s.retries
  ({ s with reconnectInterval := some interval, retries := s.retries + 1 }, interval)

/-- A run of consecutive connection failures: the initial drop fires
`disconnected`, then each armed timer fires `reconnect`, whose redial fails
again (the new socket closes, firing `disconnected` once more, which is a
no-op for the timer because one is armed).  Returns the final state and the
list of delays the successive timers were armed with: entry `k` is the wait
before redial attempt `k+1`. -/
def failureRun (timeout : Int) : Nat → LavalinkConn × List Int
  | 0 =>
    let s := (disconnected (connectedConn timeout)).1
    (s, [(s.reconnectInterval).getD 0])
  | n + 1 =>
    let (s, ws) := failureRun timeout n
    let (s1, w) := reconnect s
    ((disconnected s1).1, ws ++ [w])

/-- The wait-time formula the specification claims for the n-th scheduled
reconnect attempt: `(min(n-1,5)+5)^2 * 1000` ms. -/
def specClaimedWait (n : Int) : Int :=
  (min (n - 1) 5 + 5) ^ 2 * 1000

/-- C5 counterexample: with the default `reconnectTimeout` of 5000 ms, the
waits before the first eight redial attempts after a disconnect are
[5000, 16000, 25000, 36000, 49000, 64000, 81000, 100000] ms — not the
spec-claimed [25000, 36000, 49000, 64000, 81000, 100000, 100000, 100000] ms.
In particular the first wait is 5000 ms, not `specClaimedWait 1 = 25000` ms. -/
theorem reconnect_backoff_first_waits_refute_spec :
    (failureRun 5000 7).2 = [5000, 16000, 25000, 36000, 49000, 64000, 81000, 100000] ∧
    (failureRun 5000 7).2 ≠
      [specClaimedWait 1, specClaimedWait 2, specClaimedWait 3, specClaimedWait 4,
       specClaimedWait 5, specClaimedWait 6, specClaimedWait 7, specClaimedWait 8] := by
  constructor
  · decide
  · decide

/-- Helper: the state after `failureRun` has `retries = n` (one increment per
fired reconnect) and the recorded waits are the initial `reconnectTimeout`
followed by `retryInterval 0, retryInterval 1, …`. -/
theorem failureRun_spec (timeout : Int) (n : Nat) :
    (failureRun timeout n).1.retries = n ∧
    (failureRun timeout n).2 =
      timeout :: (List.range n).map (fun k => retryInterval k) := by
  induction n with
  | zero => constructor <;> rfl
  | succ m ih =>
    obtain ⟨h1, h2⟩ := ih
    constructor
    · simp [failureRun, reconnect, disconnected, h1]
    · simp [failureRun, reconnect, disconnected, h2, h1, List.range_succ]

/-- C5 amended: after a disconnect the node waits `reconnectTimeout` ms
(5000 by default) before the first redial; the timer armed by the k-th
`reconnect` call (k ≥ 1, waited on by redial attempt k+1) is
`retryInterval (k-1) = (min(k-2,5)+5)^2*1000` ms, so the wait sequence for
consecutive failures is [5000, 16000, 25000, 36000, 49000, 64000, 81000,
100000, 100000, …] ms; the plateau value 100000 is reached from the 6th
computed interval on; and each scheduled reconnect increments the retry
counter (the state after n fired reconnects has `retries = n`, incremented
before the redial). -/
theorem reconnect_backoff_actual :
    (∀ timeout : Int, ∀ n : Nat,
      (failureRun timeout n).1.retries = n ∧
      (failureRun timeout n).2 = timeout :: (List.range n).map (fun k => retryInterval k)) ∧
    (failureRun 5000 7).2 = [5000, 16000, 25000, 36000, 49000, 64000, 81000, 100000] ∧
    (∀ k : Nat, retryInterval ((6 : Int) + k) = 100000) := by
  refine ⟨fun timeout n => failureRun_spec timeout n, by decide, fun k => ?_⟩
  have h5 : min ((6 : Int) + k - 1) 5 = 5 := by
    apply min_eq_right
    omega
  simp [retryInterval, h5]

/-! ## Node selection (`PlayerManager.findIdealNode`) -/

/-- The `stats.cpu` object a Lavalink node caches from `stats` messages. -/
structure CpuStats where
  systemLoad : Rat
  cores : Rat
deriving DecidableEq, Repr

/-- The fields of a `Lavalink` node that `findIdealNode` inspects.
`ws` is the truthiness of `node.ws` (a socket object is present);
`cpu` is `node.stats.cpu` (`none` when stats carry no cpu block). -/
structure NodeInfo where
  host : String
  region : Option String
  draining : Bool
  ws : Bool
  connected : Bool
  cpu : Option CpuStats
deriving DecidableEq, Repr

/-- The load expression in `findIdealNode`'s sort comparator:
`a.stats.cpu ? (a.stats.cpu.systemLoad / a.stats.cpu.cores) * 100 : 0`. -/
def nodeLoad (n : NodeInfo) : Rat :=
  match n.cpu with
  | some c => c.systemLoad / c.cores * 100
  | none => 0

/-- The candidate list `findIdealNode` ends up sorting: all nodes that are not
draining, have a socket and are connected; narrowed to the given region when
one is supplied and at least one candidate matches it. -/
def idealCandidates (nodes : List NodeInfo) (region : Option String) : List NodeInfo :=
  let ns := nodes.filter (fun n => !n.draining && n.ws && n.connected)
  match region with
  | none => ns
  | some r =>
    let regionalNodes := ns.filter (fun n => n.region == some r)
    if regionalNodes.length ≠ 0 then regionalNodes else ns

/-- Embeds `PlayerManager.findIdealNode`: filter to live, non-draining nodes,
prefer the requested region when it has candidates, sort ascending by load
(JavaScript's sort with comparator `aload - bload` is stable, hence
`mergeSort` with `nodeLoad a ≤ nodeLoad b`), and return the first element
(`nodes[0]`, `none` on an empty list). -/
def findIdealNode (nodes : List NodeInfo) (region : Option String) : Option NodeInfo :=
  ((idealCandidates nodes region).mergeSort (fun a b => nodeLoad a ≤ nodeLoad b)).head?

/-- Example nodes for the spec's selection scenario: three connected `us`
nodes whose loads are 30%, 10% and 50%. -/
def exNode (h : String) (load : Rat) : NodeInfo :=
  { host := h, region := some "us", draining := false, ws := true, connected := true,
    cpu := some { systemLoad := load, cores := 1 } }

/-- Helper: the head of the load-sorted candidate list is a member with
minimal load. -/
theorem findIdealNode_min (nodes : List NodeInfo) (region : Option String) (n : NodeInfo)
    (h : findIdealNode nodes region = some n) :
    n ∈ idealCandidates nodes region ∧
      ∀ m ∈ idealCandidates nodes region, nodeLoad n ≤ nodeLoad m := by
  unfold findIdealNode at h
  set le : NodeInfo → NodeInfo → Bool := fun a b => nodeLoad a ≤ nodeLoad b with hle
  obtain ⟨tl, hsort⟩ : ∃ tl, (idealCandidates nodes region).mergeSort le = n :: tl := by
    cases hms : (idealCandidates nodes region).mergeSort le with
    | nil => rw [hms] at h; simp at h
    | cons a tl => rw [hms] at h; simp at h; exact ⟨tl, by rw [h]⟩
  have hmem : n ∈ idealCandidates nodes region := by
    have : n ∈ (idealCandidates nodes region).mergeSort le := by rw [hsort]; simp
    rwa [List.mem_mergeSort] at this
  refine ⟨hmem, fun m hm => ?_⟩
  have hms : m ∈ (idealCandidates nodes region).mergeSort le := by
    rwa [List.mem_mergeSort]
  rw [hsort] at hms
  rcases List.mem_cons.mp hms with hmn | hmtl
  · rw [hmn]
  · have hpw := @List.sorted_mergeSort NodeInfo le
      (fun a b c hab hbc => by
        simp only [hle, decide_eq_true_eq] at hab hbc ⊢
        exact le_trans hab hbc)
      (fun a b => by
        simp only [hle, Bool.or_eq_true, decide_eq_true_eq]
        exact le_total (nodeLoad a) (nodeLoad b))
      (idealCandidates nodes region)
    rw [hsort] at hpw
    have := (List.pairwise_cons.mp hpw).1 m hmtl
    simpa [hle] using this

/-- C7: node selection (i) returns `none` exactly when the candidate set
(non-draining, socket-holding, connected nodes, narrowed to the requested
region when that narrowing is non-empty) is empty, (ii) otherwise returns a
candidate of minimal `(systemLoad / cores) * 100` load (0 when cpu stats are
absent), and (iii) on regional nodes with loads [30%, 10%, 50%] returns the
10% node. -/
theorem findIdealNode_selects_lowest_load :
    (∀ nodes region, findIdealNode nodes region = none ↔ idealCandidates nodes region = []) ∧
    (∀ nodes region n, findIdealNode nodes region = some n →
      n ∈ idealCandidates nodes region ∧
        ∀ m ∈ idealCandidates nodes region, nodeLoad n ≤ nodeLoad m) ∧
    findIdealNode [exNode "a" (30 : Rat), exNode "b" (10 : Rat), exNode "c" (50 : Rat)]
        (some "us") = some (exNode "b" (10 : Rat)) := by
  refine ⟨fun nodes region => ?_, fun nodes region n h => findIdealNode_min nodes region n h, ?_⟩
  · unfold findIdealNode
    rw [List.head?_eq_none_iff]
    constructor
    · intro h
      have := List.mergeSort_perm (idealCandidates nodes region)
        (fun a b => nodeLoad a ≤ nodeLoad b)
      rw [h] at this
      exact (List.Perm.nil_eq this).symm
    · intro h; rw [h]; simp
  · norm_num [findIdealNode, idealCandidates, exNode, nodeLoad, List.mergeSort, List.merge]

/-- Witness for `findIdealNode_selects_lowest_load`: instantiating its
minimality part on the three-node example shows the selected 10% node's load
is at most the 30% node's load. -/
theorem findIdealNode_selects_lowest_load_witness :
    nodeLoad (exNode "b" (10 : Rat)) ≤ nodeLoad (exNode "a" (30 : Rat)) := by
  have h := findIdealNode_selects_lowest_load.2.1
    [exNode "a" (30 : Rat), exNode "b" (10 : Rat), exNode "c" (50 : Rat)] (some "us")
    (exNode "b" (10 : Rat))
    (by norm_num [findIdealNode, idealCandidates, exNode, nodeLoad, List.mergeSort, List.merge])
  exact h.2 (exNode "a" (30 : Rat)) (by norm_num [idealCandidates, exNode])

/-! ## Player state and command sending (`src/Player.ts`) -/

/-- Wire payloads handed to `node.send`, with the argument fields the claims
inspect.  `play`'s `startTime` is the only entry of its `options` object ever
used by this repository (`switchNode` passes `{ startTime: position }`). -/
inductive Payload where
  | voiceUpdate (guildId sessionId : String)
  | play (guildId : String) (track : Option String) (startTime : Option Int)
  | stop (guildId : String)
  | pause (guildId : String) (flag : Bool)
  | seek (guildId : String) (position : Int)
  | volume (guildId : String) (volume : Int)
  | destroy (guildId : String)
deriving DecidableEq, Repr

/-- The state of one `Player` together with the per-node observables it
drives: `sent` is the ordered log of payloads passed to `this.node.send`
(the command sequence observed at the node), `ticks` counts pending
`process.nextTick(() => this.checkEventQueue())` callbacks, and `readyTicks`
counts pending `process.nextTick(() => this.emit('ready'))` callbacks from
`connect`.  `nodeHost`/`nodeDraining` mirror `this.node.host` /
`this.node.draining`; `switchNodeCalls` counts `play`'s delegations to
`this.manager.switchNode(this)` on a draining node.  `endListeners` holds
identifiers of the attached `end` listeners and `pendingEndRestore` the
stashes captured by `once('end', …)` restore hooks (see `switchNode`);
`shardSent` logs the channel ids of the voice-state updates sent through
the shard handle by `updateVoiceState`; `reconnectEmits`/`disconnectEmits`
count the `reconnect`/`disconnect` events emitted on this player. -/
structure P where
  guildId : String
  channelId : Option String
  ready : Bool
  playing : Bool
  paused : Bool
  track : Option String
  lastTrack : Option String
  statePosition : Option Int
  sendQueue : List Payload
  sent : List Payload
  ticks : Nat
  readyTicks : Nat
  endListeners : List Nat
  pendingEndRestore : List (List Nat)
  nodeHost : String
  nodeDraining : Bool
  shardId : Int
  switchNodeCalls : Nat
  shardSent : List (Option String)
  reconnectEmits : Nat
  disconnectEmits : Nat
deriving DecidableEq, Repr

/-- The `Player` constructor: all playback flags false, empty queue, no
track, empty `state` object. -/
def mkPlayer (guildId : String) (channelId : Option String) (nodeHost : String)
    (nodeDraining : Bool) (shardId : Int) : P :=
  { guildId := guildId, channelId := channelId, ready := false, playing := false,
    paused := false, track := none, lastTrack := none, statePosition := none,
    sendQueue := [], sent := [], ticks := 0, readyTicks := 0, endListeners := [],
    pendingEndRestore := [], nodeHost := nodeHost, nodeDraining := nodeDraining,
    shardId := shardId, switchNodeCalls := 0, shardSent := [], reconnectEmits := 0,
    disconnectEmits := 0 }

/-- `this.node.send(data)`: appends to the node-observed log (socket assumed
live and serialization successful, the cases the claims concern). -/
def nodeSend (p : P) (d : Payload) : P :=
  { p with sent := p.sent ++ [d] }

/-- Embeds `Player.sendEvent`: sends the payload and schedules a
`checkEventQueue` on the next tick. -/
def sendEvent (p : P) (d : Payload) : P :=
  { p with sent := p.sent ++ [d], ticks := p.ticks + 1 }

/-- Embeds `Player.checkEventQueue`: if the queue is non-empty, splice off
the front element and send it. -/
def checkEventQueue (p : P) : P :=
  match p.sendQueue with
  | [] => p
  | e :: rest => sendEvent { p with sendQueue := rest } e

/-- Embeds `Player.queueEvent`: append when the queue is non-empty,
otherwise send immediately. -/
def queueEvent (p : P) (d : Payload) : P :=
  if p.sendQueue.length > 0 then { p with sendQueue := p.sendQueue ++ [d] }
  else sendEvent p d

/-- One pending `nextTick` callback firing: runs `checkEventQueue` if one is
scheduled (the `emit('connect')` in between is listener-free in this scope). -/
def runTick (p : P) : P :=
  if p.ticks > 0 then checkEventQueue { p with ticks := p.ticks - 1 } else p

/-- Embeds `Player.connect`: emits `connect`, queues the `voiceUpdate`
payload built from the voice-server data, and schedules `emit('ready')` on
the next tick. -/
def playerConnect (p : P) (guildId sessionId : String) : P :=
  let p := queueEvent p (.voiceUpdate guildId sessionId)
  { p with readyTicks := p.readyTicks + 1 }

/-- Embeds `Player.play(track, options)` (with `options.startTime` as the
only used option): records `lastTrack`/`track`; on a draining node resets the
position and delegates to `manager.switchNode`; otherwise queues the `play`
payload and sets `playing = !paused`. -/
def playerPlay (p : P) (track : Option String) (startTime : Option Int) : P :=
  let p := { p with lastTrack := p.track, track := track }
  if p.nodeDraining then
    { p with statePosition := some 0, switchNodeCalls := p.switchNodeCalls + 1 }
  else
    let p := queueEvent p (.play p.guildId track startTime)
    { p with playing := !p.paused }

/-- Embeds `Player.stop`: queues the `stop` payload, clears playback. -/
def playerStop (p : P) : P :=
  let p := queueEvent p (.stop p.guildId)
  { p with playing := false, lastTrack := p.track, track := none }

/-- Embeds `Player.setPause`: sends the `pause` payload directly through
`this.node.send` (not through the queue) and updates the flags. -/
def setPause (p : P) (b : Bool) : P :=
  let p := nodeSend p (.pause p.guildId b)
  { p with paused := b, playing := !b }

/-- Embeds `Player.pause`: a guarded `setPause true`. -/
def playerPause (p : P) : P :=
  if p.playing then setPause p true else p

/-- Embeds `Player.resume`: a guarded `setPause false`. -/
def playerResume (p : P) : P :=
  if !p.playing && p.paused then setPause p false else p

/-- Embeds `Player.seek`: sends directly through `this.node.send`. -/
def playerSeek (p : P) (position : Int) : P :=
  nodeSend p (.seek p.guildId position)

/-- Embeds `Player.setVolume`: sends directly through `this.node.send`. -/
def setVolume (p : P) (v : Int) : P :=
  nodeSend p (.volume p.guildId v)

/-- Embeds `Player._disconnect`: stops playing, resumes if paused, queues
`destroy`, then `stop()`. -/
def playerDisconnectRaw (p : P) : P :=
  let p := { p with playing := false }
  let p := if p.paused then playerResume p else p
  let p := queueEvent p (.destroy p.guildId)
  playerStop p

/-- Embeds `Player.disconnect`: `_disconnect` plus the `disconnect`
emission. -/
def playerDisconnect (p : P) : P :=
  let p := playerDisconnectRaw p
  { p with disconnectEmits := p.disconnectEmits + 1 }

/-- A control command issued on one session, as in claim C1. -/
inductive Cmd where
  | connect (guildId sessionId : String)
  | play (track : Option String) (startTime : Option Int)
  | stop
  | setPause (flag : Bool)
  | pause
  | resume
  | seek (position : Int)
  | volume (v : Int)
  | disconnect
deriving DecidableEq, Repr

/-- A step of the session's world: either a control command issued by the
caller or one pending `nextTick` callback firing.  Tick steps may interleave
arbitrarily with commands. -/
inductive Act where
  | cmd (c : Cmd)
  | tick
deriving DecidableEq, Repr

/-- Dispatch of a command to the corresponding `Player` method. -/
def applyCmd (p : P) : Cmd → P
  | .connect g sid => playerConnect p g sid
  | .play tr st => playerPlay p tr st
  | .stop => playerStop p
  | .setPause b => setPause p b
  | .pause => playerPause p
  | .resume => playerResume p
  | .seek pos => playerSeek p pos
  | .volume v => setVolume p v
  | .disconnect => playerDisconnectRaw p

/-- Run a sequence of steps on a player. -/
def runP (p : P) : List Act → P
  | [] => p
  | .cmd c :: as => runP (applyCmd p c) as
  | .tick :: as => runP (runTick p) as

/-- Modelled from the spec: the reference machine of §4.2 — commands are
delivered to the node one at a time, in issue order, with only the logical
playback flags as state (its `emitted` component is the command sequence as
the node should observe it).  It is compared with the embedded `Player`
queue machinery in the C1 refinement theorem. -/
structure SpecSession where
  playing : Bool
  paused : Bool
  track : Option String
  lastTrack : Option String
deriving DecidableEq, Repr

/-- The spec-side meaning of one command: the payloads the node observes for
it and the playback-flag update, per §4.2 of the specification. -/
def specCmd (g : String) (s : SpecSession) : Cmd → SpecSession × List Payload
  | .connect gd sid => (s, [.voiceUpdate gd sid])
  | .play tr st => ({ s with lastTrack := s.track, track := tr, playing := !s.paused },
      [.play g tr st])
  | .stop => ({ s with playing := false, lastTrack := s.track, track := none }, [.stop g])
  | .setPause b => ({ s with paused := b, playing := !b }, [.pause g b])
  | .pause =>
    if s.playing then ({ s with paused := true, playing := false }, [.pause g true])
    else (s, [])
  | .resume =>
    if !s.playing && s.paused then ({ s with paused := false, playing := true }, [.pause g false])
    else (s, [])
  | .seek pos => (s, [.seek g pos])
  | .volume v => (s, [.volume g v])
  | .disconnect =>
    let s := { s with playing := false }
    let (s, out) :=
      if s.paused then ({ s with paused := false, playing := true }, [Payload.pause g false])
      else (s, [])
    ({ s with playing := false, lastTrack := s.track, track := none },
      out ++ [.destroy g, .stop g])

/-- The spec-side run: ticks deliver nothing; commands deliver their payloads
immediately, in order. -/
def specRun (g : String) (s : SpecSession) : List Act → SpecSession × List Payload
  | [] => (s, [])
  | .tick :: as => specRun g s as
  | .cmd c :: as =>
    let (s1, out) := specCmd g s c
    let (s2, outs) := specRun g s1 as
    (s2, out ++ outs)

/-- The coupling between the embedded player and the spec machine: empty
send queue, live (non-draining) node, and agreeing playback flags. -/
def Coupled (g : String) (p : P) (s : SpecSession) : Prop :=
  p.guildId = g ∧ p.sendQueue = [] ∧ p.nodeDraining = false ∧
    p.playing = s.playing ∧ p.paused = s.paused ∧ p.track = s.track ∧
    p.lastTrack = s.lastTrack

/-- Helper: each single step preserves the coupling and appends exactly the
spec-side payloads of the step to the node-observed log. -/
theorem coupled_step (g : String) (p : P) (s : SpecSession) (h : Coupled g p s) :
    ∀ a : Act,
      match a with
      | .cmd c =>
        Coupled g (applyCmd p c) (specCmd g s c).1 ∧
          (applyCmd p c).sent = p.sent ++ (specCmd g s c).2
      | .tick => Coupled g (runTick p) s ∧ (runTick p).sent = p.sent := by
  obtain ⟨hg, hq, hd, hpl, hpa, htr, hlt⟩ := h
  intro a
  cases a with
  | tick =>
    simp only [runTick]
    split
    · simp [checkEventQueue, hq, Coupled, hg, hd, hpl, hpa, htr, hlt]
    · exact ⟨⟨hg, hq, hd, hpl, hpa, htr, hlt⟩, rfl⟩
  | cmd c =>
    cases c with
    | connect gd sid =>
      simp [applyCmd, playerConnect, queueEvent, hq, sendEvent, specCmd, Coupled,
        hg, hd, hpl, hpa, htr, hlt]
    | play tr st =>
      simp [applyCmd, playerPlay, hd, queueEvent, hq, sendEvent, specCmd, Coupled,
        hg, hpl, hpa, htr, hlt]
    | stop =>
      simp [applyCmd, playerStop, queueEvent, hq, sendEvent, specCmd, Coupled,
        hg, hd, hpl, hpa, htr, hlt]
    | setPause b =>
      simp [applyCmd, setPause, nodeSend, specCmd, Coupled, hg, hd, hq, hpl, hpa, htr, hlt]
    | pause =>
      simp only [applyCmd, playerPause, specCmd, hpl]
      split
      · simp [setPause, nodeSend, Coupled, hg, hd, hq, hpl, hpa, htr, hlt]
      · simp [Coupled, hg, hd, hq, hpl, hpa, htr, hlt]
    | resume =>
      simp only [applyCmd, playerResume, specCmd, hpl, hpa]
      split
      · simp [setPause, nodeSend, Coupled, hg, hd, hq, hpl, hpa, htr, hlt]
      · simp [Coupled, hg, hd, hq, hpl, hpa, htr, hlt]
    | seek pos =>
      simp [applyCmd, playerSeek, nodeSend, specCmd, Coupled, hg, hd, hq, hpl, hpa, htr, hlt]
    | volume v =>
      simp [applyCmd, setVolume, nodeSend, specCmd, Coupled, hg, hd, hq, hpl, hpa, htr, hlt]
    | disconnect =>
      simp only [applyCmd, playerDisconnectRaw, specCmd, hpa]
      split
      · simp_all [playerResume, setPause, nodeSend, queueEvent, sendEvent, playerStop,
          Coupled, hg, hd, hq, hpl, hpa, htr, hlt]
      · simp_all [queueEvent, sendEvent, playerStop, Coupled]

/-- Helper: the coupling extends to whole runs. -/
theorem coupled_run (g : String) (as : List Act) :
    ∀ (p : P) (s : SpecSession), Coupled g p s →
      Coupled g (runP p as) (specRun g s as).1 ∧
        (runP p as).sent = p.sent ++ (specRun g s as).2 := by
  induction as with
  | nil => intro p s h; simpa [runP, specRun] using h
  | cons a as ih =>
    intro p s h
    cases a with
    | tick =>
      have hstep := coupled_step g p s h Act.tick
      have := ih (runTick p) s hstep.1
      simpa [runP, specRun, hstep.2] using this
    | cmd c =>
      have hstep := coupled_step g p s h (Act.cmd c)
      have := ih (applyCmd p c) (specCmd g s c).1 hstep.1
      refine ⟨by simpa [runP, specRun] using this.1, ?_⟩
      simp [runP, specRun, this.2, hstep.2]

/-- C1: on a freshly constructed player attached to a live (non-draining)
node, any interleaving of control commands and pending-tick callbacks
delivers to the node exactly the spec-machine payload sequence of the issued
commands, in issue order, and the send queue is empty at every step — so no
command is ever held back in the queue, each payload is handed to
`node.send` synchronously inside the call that issued it, and at most one
command is in flight per session at any time. -/
theorem player_commands_fifo_order :
    ∀ (g : String) (ch : Option String) (host : String) (shard : Int) (as : List Act),
      (runP (mkPlayer g ch host false shard) as).sent =
        (specRun g { playing := false, paused := false, track := none, lastTrack := none } as).2 ∧
      (runP (mkPlayer g ch host false shard) as).sendQueue = [] := by
  intro g ch host shard as
  have h0 : Coupled g (mkPlayer g ch host false shard)
      { playing := false, paused := false, track := none, lastTrack := none } := by
    simp [Coupled, mkPlayer]
  have h := coupled_run g as (mkPlayer g ch host false shard)
    { playing := false, paused := false, track := none, lastTrack := none } h0
  exact ⟨by simpa [mkPlayer] using h.2, h.1.2.1⟩

/-! ## Failover scheduler (`PlayerManager.queueFailover` and friends) -/

/-- The failover subsystem of a `PlayerManager`: the queue of deferred
thunks (represented by values of `α`), the ordered log of thunks actually
invoked, and the number of pending `setTimeout(() => checkFailoverQueue(),
failoverRate)` timers. -/
structure FailoverState (α : Type) where
  queue : List α
  executed : List α
  timers : Nat
deriving DecidableEq, Repr

/-- A fresh failover subsystem (as built by the constructor). -/
def foInit (α : Type) : FailoverState α :=
  { queue := [], executed := [], timers := 0 }

/-- Embeds `PlayerManager.processQueue`: invoke the thunk, then arm a
`failoverRate`-delayed `checkFailoverQueue` timer. -/
def processQueue {α : Type} (st : FailoverState α) (fn : α) : FailoverState α :=
  { st with executed := st.executed ++ [fn], timers := st.timers + 1 }

/-- Embeds `PlayerManager.checkFailoverQueue`: when the queue is non-empty,
splice off up to `failoverLimit` thunks and process each. -/
def checkFailoverQueue {α : Type} (limit : Nat) (st : FailoverState α) : FailoverState α :=
  if st.queue.length > 0 then
    let fns := st.queue.take limit
    let st := { st with queue := st.queue.drop limit }
    fns.foldl processQueue st
  else st

/-- Embeds `PlayerManager.queueFailover`: append when the queue is
non-empty, otherwise process immediately. -/
def queueFailover {α : Type} (st : FailoverState α) (fn : α) : FailoverState α :=
  if st.queue.length > 0 then { st with queue := st.queue ++ [fn] }
  else processQueue st fn

/-- A step of the failover subsystem: a `queueFailover` call, or one of the
armed `failoverRate` timers firing. -/
inductive FAct (α : Type) where
  | call (fn : α)
  | fire
deriving DecidableEq, Repr

/-- Run a sequence of failover steps. -/
def foRun {α : Type} (limit : Nat) (st : FailoverState α) : List (FAct α) → FailoverState α
  | [] => st
  | .call fn :: as => foRun limit (queueFailover st fn) as
  | .fire :: as =>
    foRun limit (if st.timers > 0 then checkFailoverQueue limit { st with timers := st.timers - 1 }
      else st) as

/-- The `queueFailover` calls in a step sequence, in order. -/
def foCalls {α : Type} : List (FAct α) → List α
  | [] => []
  | .call fn :: as => fn :: foCalls as
  | .fire :: as => foCalls as

/-- Helper: starting from an empty queue, the queue stays empty forever
(only `queueFailover` ever pushes, and only when the queue is already
non-empty), so every queued thunk is executed synchronously inside its
`queueFailover` call and timer firings never execute anything. -/
theorem foRun_queue_empty {α : Type} (limit : Nat) (as : List (FAct α)) :
    ∀ st : FailoverState α, st.queue = [] →
      (foRun limit st as).queue = [] ∧
        (foRun limit st as).executed = st.executed ++ foCalls as := by
  induction as with
  | nil => intro st h; simp [foRun, foCalls, h]
  | cons a as ih =>
    intro st h
    cases a with
    | call fn =>
      have hq : queueFailover st fn = processQueue st fn := by
        simp [queueFailover, h]
      have h2 := ih (processQueue st fn) (by simp [processQueue, h])
      simp only [foRun, hq]
      simp only [processQueue] at h2
      simpa [foCalls] using h2
    | fire =>
      simp only [foRun]
      split
      · have : checkFailoverQueue limit { st with timers := st.timers - 1 } =
            { st with timers := st.timers - 1 } := by
          simp [checkFailoverQueue, h]
        rw [this]
        have h2 := ih { st with timers := st.timers - 1 } h
        simpa [foCalls] using h2
      · have h2 := ih st h
        simpa [foCalls] using h2

/-- C8 (code bug): from a fresh scheduler, every sequence of `queueFailover`
calls and timer firings leaves the queue empty and executes every thunk
synchronously at its `queueFailover` call — the append branch and the
splice in `checkFailoverQueue` are unreachable, so `failoverLimit` and
`failoverRate` never throttle anything.  In particular queuing five
migrations with `failoverLimit = 1` executes all five immediately, with no
timer firing in between, instead of one immediately and four at
rate-limited intervals. -/
theorem queueFailover_never_queues :
    (∀ (limit : Nat) (as : List (FAct Nat)),
      (foRun limit (foInit Nat) as).queue = [] ∧
        (foRun limit (foInit Nat) as).executed = foCalls as) ∧
    (foRun 1 (foInit Nat) [.call 1, .call 2, .call 3, .call 4, .call 5]).executed =
      [1, 2, 3, 4, 5] ∧
    (foRun 1 (foInit Nat) [.call 1, .call 2, .call 3, .call 4, .call 5]).queue = [] := by
  refine ⟨fun limit as => ?_, by decide, by decide⟩
  have h := foRun_queue_empty limit as (foInit Nat) rfl
  simpa [foInit] using h

/-! ## Node-loss and shard-ready dispatch (`PlayerManager.onDisconnect`,
`PlayerManager.shardReady`) -/

/-- A migration thunk `switchNode.bind(this, player, leave)` queued into the
failover scheduler, identified by the player's guild and the `leave` flag
(`onDisconnect` passes `true`; `shardReady` passes nothing, i.e. `false`
under JavaScript truthiness). -/
abbrev Migration := String × Bool

/-- Embeds `PlayerManager.onDisconnect`: filter the players bound to the
disconnected node's host and queue a leave-and-migrate thunk for each. -/
def onDisconnect (players : List P) (host : String) (fo : FailoverState Migration) :
    FailoverState Migration :=
  (players.filter (fun p => p.nodeHost == host)).foldl
    (fun st p => queueFailover st (p.guildId, true)) fo

/-- Embeds `PlayerManager.shardReady`: filter the players whose shard id is
truthy (non-zero, per `player.shard.id && player.shard.id === id`) and equal
to the readied shard, and queue a migrate-without-leave thunk for each. -/
def shardReady (players : List P) (id : Int) (fo : FailoverState Migration) :
    FailoverState Migration :=
  (players.filter (fun p => !(p.shardId == 0) && p.shardId == id)).foldl
    (fun st p => queueFailover st (p.guildId, false)) fo

/-- Helper: folding `queueFailover` over a list from an empty queue executes
exactly that list, in order. -/
theorem foldl_queueFailover_empty {α : Type} (l : List α) :
    ∀ st : FailoverState α, st.queue = [] →
      (l.foldl queueFailover st).queue = [] ∧
        (l.foldl queueFailover st).executed = st.executed ++ l := by
  induction l with
  | nil => intro st h; simp [h]
  | cons x l ih =>
    intro st h
    have hx : queueFailover st x = processQueue st x := by simp [queueFailover, h]
    have h2 := ih (processQueue st x) (by simp [processQueue, h])
    simp only [List.foldl_cons, hx]
    simp only [processQueue] at h2
    simpa using h2

/-- C10 counterexample: a session bound to shard id 0 is not enqueued for
migration when shard 0 becomes ready — `player.shard.id && …` is falsy for
the (real) shard id 0 — refuting the claim that every session bound to the
readied shard id is enqueued. -/
theorem shardReady_skips_shard_zero :
    (shardReady [mkPlayer "g0" (some "c0") "h0" false 0] 0
        (foInit Migration)).executed = [] ∧
    (mkPlayer "g0" (some "c0") "h0" false 0).shardId = 0 := by
  constructor
  · decide
  · decide

/-- C10 amended: on a node `disconnect` event, exactly the sessions bound to
that node's host are enqueued (and, the queue being always empty, at once
executed) as migrations with leave-old-channel true, in map order; on a
shard-ready signal with shard id s, exactly the sessions whose shard id is
truthy (non-zero) and equal to s are enqueued as migrations without leaving
the old channel, in map order. -/
theorem node_loss_and_shard_ready_dispatch :
    ∀ (players : List P) (host : String) (id : Int),
      (onDisconnect players host (foInit Migration)).executed =
          (players.filter (fun p => p.nodeHost == host)).map (fun p => (p.guildId, true)) ∧
        (onDisconnect players host (foInit Migration)).queue = [] ∧
        (shardReady players id (foInit Migration)).executed =
          (players.filter (fun p => !(p.shardId == 0) && p.shardId == id)).map
            (fun p => (p.guildId, false)) ∧
        (shardReady players id (foInit Migration)).queue = [] := by
  intro players host id
  have h1 := foldl_queueFailover_empty
    ((players.filter (fun p => p.nodeHost == host)).map (fun p => (p.guildId, true)))
    (foInit Migration) rfl
  have h2 := foldl_queueFailover_empty
    ((players.filter (fun p => !(p.shardId == 0) && p.shardId == id)).map
      (fun p => (p.guildId, false)))
    (foInit Migration) rfl
  have e1 : onDisconnect players host (foInit Migration) =
      ((players.filter (fun p => p.nodeHost == host)).map (fun p => (p.guildId, true))).foldl
        queueFailover (foInit Migration) := by
    simp [onDisconnect, List.foldl_map]
  have e2 : shardReady players id (foInit Migration) =
      ((players.filter (fun p => !(p.shardId == 0) && p.shardId == id)).map
        (fun p => (p.guildId, false))).foldl queueFailover (foInit Migration) := by
    simp [shardReady, List.foldl_map]
  rw [e1, e2]
  exact ⟨by simpa [foInit] using h1.2, h1.1, by simpa [foInit] using h2.2, h2.1⟩

/-! ## Pending joins and voice-server reconciliation
(`PlayerManager.join`, `PlayerManager.voiceServerUpdate`) -/

/-- One `pendingGuilds` registry entry.  `timeoutArmed` is whether the
10-second `setTimeout` handle is still non-null; `player` is the optional
pre-existing session passed to `join` (used by `switchNode` re-joins);
`nodeHost` identifies the node the entry captured. -/
structure PendingEntry where
  channelId : Option String
  player : Option P
  nodeHost : String
  timeoutArmed : Bool
deriving DecidableEq, Repr

/-- A settlement of the promise returned by `join`: `res(player)` carries the
`player` variable at resolution time (an `Option` because the source resolves
with whatever `this.players.get(guildId)` returned). -/
inductive SettleEv where
  | res (p : Option P)
  | rejTimeout
  | rejDisconnected
deriving DecidableEq, Repr

/-- The world of one guild's join lifecycle: its `pendingGuilds` entry, its
`players` map entry, whether the one-shot `ready`/`disconnect` handlers from
`voiceServerUpdate` are attached, the ordered settlements of the join
promise, and the number of `TypeError`s the handler code threw (reading a
property of `undefined`). -/
structure JoinWorld where
  guild : String
  pending : Option PendingEntry
  player : Option P
  readyListener : Bool
  disconnectListener : Bool
  settlements : List SettleEv
  tsErrors : Nat
deriving DecidableEq, Repr

/-- The world right after `join(guildId, channelId, …)` took the full
handshake path: a fresh pending entry with its 10-second timer armed and no
listeners attached yet. -/
def initJoinWorld (g : String) (ch : Option String) (pl : Option P) (host : String) :
    JoinWorld :=
  { guild := g,
    pending := some { channelId := ch, player := pl, nodeHost := host, timeoutArmed := true },
    player := none, readyListener := false, disconnectListener := false,
    settlements := [], tsErrors := 0 }

/-- The `readyHandler` closure in `voiceServerUpdate`: re-reads the player
from the map; with no pending entry it just detaches the disconnect
listener; otherwise it detaches the disconnect listener, resolves the
promise with the player, and deletes the entry (a `TypeError` if the player
was meanwhile removed from the map, since `player.removeListener` runs
before the resolve). -/
def readyHandler (w : JoinWorld) : JoinWorld :=
  match w.pending with
  | none =>
    match w.player with
    | some _ => { w with disconnectListener := false }
    | none => w
  | some _ =>
    match w.player with
    | some _ =>
      { w with
        disconnectListener := false,
        settlements := w.settlements ++ [.res w.player],
        pending := none }
    | none => { w with tsErrors := w.tsErrors + 1 }

/-- The `disconnectHandler` closure in `voiceServerUpdate`, symmetric to
`readyHandler` with a `Disconnected` rejection. -/
def disconnectHandler (w : JoinWorld) : JoinWorld :=
  match w.pending with
  | none =>
    match w.player with
    | some _ => { w with readyListener := false }
    | none => w
  | some _ =>
    match w.player with
    | some _ =>
      { w with
        readyListener := false,
        settlements := w.settlements ++ [.rejDisconnected],
        pending := none }
    | none => { w with tsErrors := w.tsErrors + 1 }

/-- Tail of `voiceServerUpdate` once a channel id is known: invoke
`player.connect` (which queues the `voiceUpdate` payload and schedules the
`ready` emission) and attach the one-shot `ready`/`disconnect` handlers. -/
def vsuConnectAttach (w : JoinWorld) (p : P) (sid : String) : JoinWorld :=
  let p := playerConnect p w.guild sid
  { w with player := some p, readyListener := true, disconnectListener := true }

/-- The part of `voiceServerUpdate` from the line
`const channelId = player.channelId || this.pendingGuilds[g].channelId` on:
when no channel id is known and an entry exists, the source deletes the
entry and then reads `.rej` off the just-deleted (now `undefined`) entry,
which throws a `TypeError` instead of rejecting. -/
def vsuWithPlayer (w : JoinWorld) (p : P) (sid : String) : JoinWorld :=
  match p.channelId with
  | some _ => vsuConnectAttach w p sid
  | none =>
    match w.pending with
    | none => { w with tsErrors := w.tsErrors + 1 }
    | some e =>
      match e.channelId with
      | some _ => vsuConnectAttach w p sid
      | none => { w with pending := none, tsErrors := w.tsErrors + 1 }

/-- Opening lines of `voiceServerUpdate`: clear the pending entry's timeout
if one is armed. -/
def clearPendingTimeout (w : JoinWorld) : JoinWorld :=
  match w.pending with
  | some e =>
    if e.timeoutArmed then { w with pending := some { e with timeoutArmed := false } } else w
  | none => w

/-- The player lookup/construction part of `voiceServerUpdate`: use the
registered player if any; otherwise return early when no entry is pending,
or take the entry's player (re-pointing it at the entry's node) or construct
a fresh one from the entry, registering it in the map.  The shard carried by
the event is not modelled (no claim inspects it). -/
def vsuCore (w : JoinWorld) (sid : String) : JoinWorld :=
  match w.player with
  | some p => vsuWithPlayer w p sid
  | none =>
    match w.pending with
    | none => w
    | some e =>
      match e.player with
      | some p0 =>
        let p := { p0 with nodeHost := e.nodeHost }
        vsuWithPlayer { w with player := some p } p sid
      | none =>
        let p := mkPlayer w.guild e.channelId e.nodeHost false 0
        vsuWithPlayer { w with player := some p } p sid

/-- Embeds `PlayerManager.voiceServerUpdate` for this guild: clear the
pending timeout, then look up or construct the player, resolve the channel
id, connect and attach the one-shot handlers. -/
def vsuStep (w : JoinWorld) (sid : String) : JoinWorld :=
  vsuCore (clearPendingTimeout w) sid

/-- The scheduled `emit('ready')` from `Player.connect` firing: consumes one
pending ready tick; the one-shot listener, if attached, detaches itself and
runs `readyHandler`. -/
def readyEmission (w : JoinWorld) : JoinWorld :=
  match w.player with
  | none => w
  | some p =>
    if p.readyTicks > 0 then
      let w := { w with player := some { p with readyTicks := p.readyTicks - 1 } }
      if w.readyListener then readyHandler { w with readyListener := false } else w
    else w

/-- The environment calling `player.disconnect()`: the player tears itself
down (`_disconnect`) and emits `disconnect`; the one-shot listener, if
attached, detaches itself and runs `disconnectHandler`. -/
def disconnectEmission (w : JoinWorld) : JoinWorld :=
  match w.player with
  | none => w
  | some p =>
    let w := { w with player := some (playerDisconnect p) }
    if w.disconnectListener then disconnectHandler { w with disconnectListener := false } else w

/-- The 10-second join timer firing (only possible while still armed): the
callback deletes the entry and rejects with the timeout error (the `rej`
reference was captured by the closure, so this rejection does go through). -/
def timeoutFiring (w : JoinWorld) : JoinWorld :=
  match w.pending with
  | some e =>
    if e.timeoutArmed then
      { w with pending := none, settlements := w.settlements ++ [.rejTimeout] }
    else w
  | none => w

/-- Events that can hit one guild's join lifecycle, in any order. -/
inductive JAct where
  | voiceServerArrives (sid : String)
  | readyFires
  | disconnectFires
  | timeoutFires
deriving DecidableEq, Repr

/-- One lifecycle step. -/
def jStep (w : JoinWorld) : JAct → JoinWorld
  | .voiceServerArrives sid => vsuStep w sid
  | .readyFires => readyEmission w
  | .disconnectFires => disconnectEmission w
  | .timeoutFires => timeoutFiring w

/-- Run of a join-lifecycle event sequence. -/
def runJ (w : JoinWorld) : List JAct → JoinWorld
  | [] => w
  | a :: as => runJ (jStep w a) as

/-- The once-ness invariant: at most one settlement ever, and while the
registry entry is present nothing has settled (equivalently: immediately
after any settlement the entry is absent). -/
def SettleInv (w : JoinWorld) : Prop :=
  w.settlements.length ≤ 1 ∧ (w.pending = none ∨ w.settlements = [])

/-- Helper: `vsuConnectAttach` neither settles nor touches the registry. -/
theorem vsuConnectAttach_pres (w : JoinWorld) (p : P) (sid : String) :
    (vsuConnectAttach w p sid).settlements = w.settlements ∧
      (vsuConnectAttach w p sid).pending = w.pending := by
  simp [vsuConnectAttach]

/-- Helper: `vsuWithPlayer` never settles, and either leaves the registry
entry alone or deletes it (the invalid-channel branch). -/
theorem vsuWithPlayer_pres (w : JoinWorld) (p : P) (sid : String) :
    (vsuWithPlayer w p sid).settlements = w.settlements ∧
      ((vsuWithPlayer w p sid).pending = w.pending ∨ (vsuWithPlayer w p sid).pending = none) := by
  unfold vsuWithPlayer
  rcases hc : p.channelId with _ | c
  · simp only [hc]
    rcases hp : w.pending with _ | e
    · simp [hp]
    · simp only [hp]
      rcases hec : e.channelId with _ | c2
      · simp [hec]
      · simp only [hec]
        exact ⟨(vsuConnectAttach_pres w p sid).1,
          Or.inl ((vsuConnectAttach_pres w p sid).2.trans hp)⟩
  · simp only [hc]
    exact ⟨(vsuConnectAttach_pres w p sid).1, Or.inl (vsuConnectAttach_pres w p sid).2⟩

/-- Helper: clearing the timeout changes neither settlements, nor the
player, nor the presence of the registry entry. -/
theorem clearPendingTimeout_pres (w : JoinWorld) :
    (clearPendingTimeout w).settlements = w.settlements ∧
      (clearPendingTimeout w).player = w.player ∧
      ((clearPendingTimeout w).pending.isSome → w.pending.isSome) := by
  unfold clearPendingTimeout
  rcases hp : w.pending with _ | e
  · simp [hp]
  · simp only [hp]
    split <;> simp [hp]

/-- Helper: the player lookup/construction part of `voiceServerUpdate` never
settles, and the registry entry afterwards is present only if it was
present before. -/
theorem vsuCore_pres (w : JoinWorld) (sid : String) :
    (vsuCore w sid).settlements = w.settlements ∧
      ((vsuCore w sid).pending.isSome → w.pending.isSome) := by
  unfold vsuCore
  rcases hpl : w.player with _ | p
  · simp only [hpl]
    rcases hp : w.pending with _ | e
    · simp [hp]
    · simp only [hp]
      rcases hep : e.player with _ | p0
      all_goals
        simp only [hep]
        exact ⟨(vsuWithPlayer_pres _ _ sid).1, fun _ => rfl⟩
  · simp only [hpl]
    have h := vsuWithPlayer_pres w p sid
    refine ⟨h.1, fun hs => ?_⟩
    rcases h.2 with h2 | h2
    · rwa [h2] at hs
    · rw [h2] at hs; cases hs

/-- Helper: `vsuStep` never settles, and the registry entry afterwards is
present only if it was present before. -/
theorem vsuStep_pres (w : JoinWorld) (sid : String) :
    (vsuStep w sid).settlements = w.settlements ∧
      ((vsuStep w sid).pending.isSome → w.pending.isSome) := by
  have hc := clearPendingTimeout_pres w
  have hco := vsuCore_pres (clearPendingTimeout w) sid
  exact ⟨hco.1.trans hc.1, fun hs => hc.2.2 (hco.2 hs)⟩

/-- Helper: `readyHandler` preserves the once-ness invariant. -/
theorem readyHandler_inv (w : JoinWorld) (h : SettleInv w) : SettleInv (readyHandler w) := by
  obtain ⟨h1, h2⟩ := h
  unfold readyHandler
  rcases hp : w.pending with _ | e
  · rcases w.player with _ | p
    · exact ⟨h1, h2⟩
    · exact ⟨h1, by simp⟩
  · have h2e : w.settlements = [] := by
      rcases h2 with h2 | h2
      · rw [hp] at h2; cases h2
      · exact h2
    rcases w.player with _ | p
    · exact ⟨h1, by simpa [hp] using h2⟩
    · exact ⟨by simp [h2e], by simp⟩

/-- Helper: `disconnectHandler` preserves the once-ness invariant. -/
theorem disconnectHandler_inv (w : JoinWorld) (h : SettleInv w) : SettleInv (disconnectHandler w) := by
  obtain ⟨h1, h2⟩ := h
  unfold disconnectHandler
  rcases hp : w.pending with _ | e
  · rcases w.player with _ | p
    · exact ⟨h1, h2⟩
    · exact ⟨h1, by simp⟩
  · have h2e : w.settlements = [] := by
      rcases h2 with h2 | h2
      · rw [hp] at h2; cases h2
      · exact h2
    rcases w.player with _ | p
    · exact ⟨h1, by simpa [hp] using h2⟩
    · exact ⟨by simp [h2e], by simp⟩

/-- Helper: every lifecycle step preserves the once-ness invariant.  The
key points: a settlement only happens in a step that sees the entry present
(hence, by the invariant, no prior settlement) and the same step removes the
entry; no step ever re-creates an entry. -/
theorem settleInv_step (w : JoinWorld) (h : SettleInv w) (a : JAct) : SettleInv (jStep w a) := by
  obtain ⟨h1, h2⟩ := h
  cases a with
  | voiceServerArrives sid =>
    have hv := vsuStep_pres w sid
    constructor
    · show (vsuStep w sid).settlements.length ≤ 1
      rw [hv.1]; exact h1
    · show (vsuStep w sid).pending = none ∨ (vsuStep w sid).settlements = []
      rcases hq : (vsuStep w sid).pending with _ | e
      · exact Or.inl rfl
      · refine Or.inr ?_
        rw [hv.1]
        have hws : w.pending.isSome := hv.2 (by rw [hq]; rfl)
        rcases h2 with h2 | h2
        · rw [h2] at hws; cases hws
        · exact h2
  | readyFires =>
    show SettleInv (readyEmission w)
    unfold readyEmission
    rcases hpl : w.player with _ | p
    · simp only [hpl]; exact ⟨h1, h2⟩
    · simp only [hpl]
      split
      · split
        · exact readyHandler_inv _ ⟨h1, h2⟩
        · exact ⟨h1, h2⟩
      · exact ⟨h1, h2⟩
  | disconnectFires =>
    show SettleInv (disconnectEmission w)
    unfold disconnectEmission
    rcases hpl : w.player with _ | p
    · simp only [hpl]; exact ⟨h1, h2⟩
    · simp only [hpl]
      split
      · exact disconnectHandler_inv _ ⟨h1, h2⟩
      · exact ⟨h1, h2⟩
  | timeoutFires =>
    show SettleInv (timeoutFiring w)
    unfold timeoutFiring
    rcases hp : w.pending with _ | e
    · simp only [hp]; exact ⟨h1, h2⟩
    · simp only [hp]
      have h2e : w.settlements = [] := by
        rcases h2 with h2 | h2
        · rw [hp] at h2; cases h2
        · exact h2
      split
      · exact ⟨by simp [h2e], by simp⟩
      · exact ⟨h1, h2⟩

/-- Helper: the once-ness invariant holds along any run from an invariant
state. -/
theorem settleInv_run (tr : List JAct) :
    ∀ w : JoinWorld, SettleInv w → SettleInv (runJ w tr) := by
  induction tr with
  | nil => intro w h; exact h
  | cons a as ih => intro w h; exact ih (jStep w a) (settleInv_step w h a)

/-- Kinds of settlements, for stating which way a run settled. -/
inductive SettleKind where
  | resolved
  | timedOut
  | disconnected
deriving DecidableEq, Repr

/-- The kind of a settlement. -/
def settleKind : SettleEv → SettleKind
  | .res _ => .resolved
  | .rejTimeout => .timedOut
  | .rejDisconnected => .disconnected

/-- C2: for every event sequence hitting a pending join (voice-server
arrival, ready emission, disconnect emission, timer firing, in any order),
the join promise settles at most once, and whenever it has settled the
registry entry is absent (each settling step deletes the entry in the same
synchronous step, and the ready/disconnect one-shot listeners each remove
the other while the timeout path only fires while the entry is still armed);
moreover each terminating path settles exactly once: voice-server arrival
followed by the ready emission resolves, followed by a disconnect rejects
with `Disconnected`, and the timer alone rejects with the timeout error.
At most one entry per guild exists at any time since the registry is an
object keyed by guild id (modelled by the `Option PendingEntry` field). -/
theorem pending_join_settles_once :
    (∀ (g : String) (ch : Option String) (pl : Option P) (host : String) (tr : List JAct),
      (runJ (initJoinWorld g ch pl host) tr).settlements.length ≤ 1 ∧
        ((runJ (initJoinWorld g ch pl host) tr).pending = none ∨
          (runJ (initJoinWorld g ch pl host) tr).settlements = [])) ∧
    (∀ (g c sid host : String),
      ((runJ (initJoinWorld g (some c) none host)
          [.voiceServerArrives sid, .readyFires]).settlements.map settleKind =
        [.resolved]) ∧
      ((runJ (initJoinWorld g (some c) none host)
          [.voiceServerArrives sid, .disconnectFires]).settlements.map settleKind =
        [.disconnected]) ∧
      ((runJ (initJoinWorld g (some c) none host) [.timeoutFires]).settlements.map settleKind =
        [.timedOut])) := by
  constructor
  · intro g ch pl host tr
    exact settleInv_run tr (initJoinWorld g ch pl host) (by simp [SettleInv, initJoinWorld])
  · intro g c sid host
    refine ⟨?_, ?_, ?_⟩ <;> rfl

/-! ## The synchronous part of `PlayerManager.join` (C3) and the join
scenarios (C4, C6) -/

/-- Embeds `Player.updateVoiceState` (shard handle present): sends a
voice-state update for the given channel (or `null`) through the shard. -/
def updateVoiceState (p : P) (ch : Option String) : P :=
  { p with shardSent := p.shardSent ++ [ch] }

/-- Embeds `Player.switchChannel`: no-op when unchanged; otherwise update the
local channel and, only when `reactive === true`, send a voice-state
update. -/
def switchChannel (p : P) (ch : Option String) (reactive : Bool) : P :=
  if p.channelId == ch then p
  else
    let p := { p with channelId := ch }
    if reactive then updateVoiceState p ch else p

/-- The synchronous outcome of a `join` call: immediately resolved with a
player, immediately rejected with `'No available voice nodes.'`, or a fresh
`pendingGuilds` entry awaiting the voice-server assignment. -/
inductive JoinOutcome where
  | resolvedImmediately (p : P)
  | rejectedNoNodes
  | pendingCreated (e : PendingEntry)
deriving DecidableEq, Repr

/-- Whether a join outcome is an immediate resolution. -/
def JoinOutcome.isImmediate : JoinOutcome → Bool
  | .resolvedImmediately _ => true
  | _ => false

/-- Whether a join outcome created a pending registry entry. -/
def JoinOutcome.isPending : JoinOutcome → Bool
  | .pendingCreated _ => true
  | _ => false

/-- The full-handshake tail of `join`: select a node (the caller passes the
already-classified region; the explicit `options.node` shortcut is not
modelled, no claim concerns it), reject when none qualifies, otherwise
create the pending entry with its 10-second timeout armed. -/
def joinFull (player : Option P) (channelId : Option String) (nodes : List NodeInfo)
    (region : Option String) : JoinOutcome :=
  match findIdealNode nodes region with
  | none => .rejectedNoNodes
  | some node =>
    .pendingCreated
      { channelId := channelId, player := player, nodeHost := node.host, timeoutArmed := true }

/-- Embeds the synchronous decision logic of `PlayerManager.join`:
`existing` is `player || this.players.get(guildId)`.  When a player exists
and its channel differs from the requested one, the source switches the
channel (non-reactively) and resolves immediately; in every other case it
proceeds with the full handshake. -/
def joinStep (existing : Option P) (channelId : Option String) (nodes : List NodeInfo)
    (region : Option String) : JoinOutcome :=
  match existing with
  | some player =>
    if player.channelId ≠ channelId then
      .resolvedImmediately (switchChannel player channelId false)
    else joinFull existing channelId nodes region
  | none => joinFull (none : Option P) channelId nodes region

/-- C3 counterexample: a join for the channel the existing session already
occupies does not resolve immediately — it creates a new pending registry
entry (here, with a connected node available), refuting the claim that an
equal-channel join resolves immediately with the existing session and
creates no pending entry. -/
theorem join_same_channel_creates_pending :
    (joinStep (some (mkPlayer "g1" (some "c1") "h1" false 1)) (some "c1")
        [exNode "a" (30 : Rat)] (some "us")).isPending = true ∧
    (joinStep (some (mkPlayer "g1" (some "c1") "h1" false 1)) (some "c1")
        [exNode "a" (30 : Rat)] (some "us")).isImmediate = false := by
  constructor
  · norm_num [joinStep, joinFull, findIdealNode, idealCandidates, exNode, mkPlayer,
      nodeLoad, List.mergeSort, List.merge, JoinOutcome.isPending]
  · norm_num [joinStep, joinFull, findIdealNode, idealCandidates, exNode, mkPlayer,
      nodeLoad, List.mergeSort, List.merge, JoinOutcome.isImmediate]

/-- C3 amended: when an existing session's channel differs from the
requested one, `join` resolves immediately with that session after switching
its channel locally — creating no pending entry, sending nothing to the
node, and sending no voice-state update (the switch is non-reactive); when
the requested channel equals the session's current channel, `join` does not
resolve immediately but proceeds with the full handshake (a pending entry,
or a no-available-nodes rejection). -/
theorem join_existing_session_fast_path (p : P) (ch : Option String)
    (nodes : List NodeInfo) (region : Option String) :
    (p.channelId ≠ ch →
      joinStep (some p) ch nodes region = .resolvedImmediately (switchChannel p ch false) ∧
        (switchChannel p ch false).channelId = ch ∧
        (switchChannel p ch false).sent = p.sent ∧
        (switchChannel p ch false).shardSent = p.shardSent) ∧
    (p.channelId = ch → (joinStep (some p) ch nodes region).isImmediate = false) := by
  constructor
  · intro hne
    refine ⟨by simp [joinStep, hne], ?_, ?_, ?_⟩ <;>
      simp [switchChannel, updateVoiceState, hne]
  · intro heq
    simp only [joinStep, heq]
    simp only [ne_eq, not_true_eq_false, if_false]
    unfold joinFull
    rcases findIdealNode nodes region with _ | nd <;> simp [JoinOutcome.isImmediate]

/-- Witness for `join_existing_session_fast_path` at a concrete player:
requesting channel `c2` on a session currently in `c1` resolves immediately
with the switched session, and requesting `c1` again does not. -/
theorem join_existing_session_fast_path_witness :
    (joinStep (some (mkPlayer "g1" (some "c1") "h1" false 1)) (some "c2") [] none =
      .resolvedImmediately (switchChannel (mkPlayer "g1" (some "c1") "h1" false 1)
        (some "c2") false)) ∧
    (joinStep (some (mkPlayer "g1" (some "c1") "h1" false 1)) (some "c1") [] none).isImmediate
      = false := by
  constructor
  · exact ((join_existing_session_fast_path (mkPlayer "g1" (some "c1") "h1" false 1)
      (some "c2") [] none).1 (by decide)).1
  · exact (join_existing_session_fast_path (mkPlayer "g1" (some "c1") "h1" false 1)
      (some "c1") [] none).2 (by decide)

/-- Channel of a resolved settlement, when the settlement is a resolution
with a present player. -/
def resChannel : SettleEv → Option (Option String)
  | .res (some p) => some p.channelId
  | _ => none

/-- Ready flag of a resolved settlement, when the settlement is a resolution
with a present player. -/
def resReadyFlag : SettleEv → Option Bool
  | .res (some p) => some p.ready
  | _ => none

/-- C4 counterexample: in the join-then-matching-voice-server scenario the
promise does resolve with a session whose channel is the requested `c1`,
but the session's `ready` flag is `false` — nothing in the repository ever
sets `Player.ready` to `true` — refuting the claimed `ready = true`. -/
theorem join_scenario_ready_flag_false :
    ((runJ (initJoinWorld "g1" (some "c1") none "h1")
        [.voiceServerArrives "s1", .readyFires]).settlements.map resReadyFlag =
      [some false]) ∧
    ((runJ (initJoinWorld "g1" (some "c1") none "h1")
        [.voiceServerArrives "s1", .readyFires]).settlements.map resChannel =
      [some (some "c1")]) := by
  constructor
  · rfl
  · rfl

/-- C4 amended: a join immediately followed by a matching voice-server
assignment resolves the returned promise exactly once, with a session whose
`channelId` equals the requested channel; the session has emitted its
`ready` event (that emission is what fires the resolution), but its boolean
`ready` field is still `false`, since no code in the repository ever sets
it to `true`. -/
theorem join_scenario_resolves_with_channel :
    ∀ g c sid host : String,
      ((runJ (initJoinWorld g (some c) none host)
          [.voiceServerArrives sid, .readyFires]).settlements.map resChannel =
        [some (some c)]) ∧
      ((runJ (initJoinWorld g (some c) none host)
          [.voiceServerArrives sid, .readyFires]).settlements.map resReadyFlag =
        [some false]) ∧
      ((runJ (initJoinWorld g (some c) none host)
          [.voiceServerArrives sid, .readyFires]).settlements.map settleKind =
        [.resolved]) := by
  intro g c sid host
  refine ⟨?_, ?_, ?_⟩ <;> rfl

/-- C6 (code bug): when a voice-server assignment arrives for a pending join
and no channel id is known (none on the session, none in the entry), the
source deletes the registry entry and then reads `.rej` off the deleted
(`undefined`) entry: a `TypeError` is thrown, the promise is never rejected
(and its timeout was already cleared at the top of the handler), so the
invalid-channel error never reaches the caller.  The run ends with the
entry absent, no settlement, and one thrown `TypeError`. -/
theorem invalid_channel_rejection_never_fires :
    ∀ g sid host : String,
      ((runJ (initJoinWorld g none none host) [.voiceServerArrives sid]).settlements = []) ∧
      ((runJ (initJoinWorld g none none host) [.voiceServerArrives sid]).pending = none) ∧
      ((runJ (initJoinWorld g none none host) [.voiceServerArrives sid]).tsErrors = 1) := by
  intro g sid host
  refine ⟨?_, ?_, ?_⟩ <;> rfl

/-! ## Session migration (`PlayerManager.switchNode`) -/

/-- The player emitting an `end` event: each `once('end', …)` restore hook
installed by `switchNode` re-attaches its captured stash (hooks run in
attach order, and listeners added during an emit are not invoked for that
same emit), then the hooks are gone. -/
def emitEnd (p : P) : P :=
  { p with
    endListeners := p.endListeners ++ p.pendingEndRestore.flatten,
    pendingEndRestore := [] }

/-- The local variables `switchNode` captures before mutating the player:
`{ guildId, channelId, track, paused }` and
`position = (player.state.position || 0) + (options.reconnectThreshold || 2000)`. -/
structure SNLocals where
  guildId : String
  channelId : Option String
  track : Option String
  paused : Bool
  position : Int
deriving DecidableEq, Repr

/-- The synchronous part of `PlayerManager.switchNode`: capture the locals,
detach and stash all `end` listeners behind a one-shot restore hook, delete
the session from the players map (first component: the map entry for its
guild afterwards), mark it not playing, and, when `leave` is set, send a
voice-state update for channel `null`. -/
def switchNodeStart (p : P) (leave : Bool) (thr : Option Int) : Option P × P × SNLocals :=
  let locals : SNLocals :=
    { guildId := p.guildId, channelId := p.channelId, track := p.track, paused := p.paused,
      position := p.statePosition.getD 0 + thr.getD 2000 }
  let stash := p.endListeners
  let p := { p with endListeners := [], pendingEndRestore := p.pendingEndRestore ++ [stash] }
  let p := { p with playing := false }
  let p := if leave then updateVoiceState p none else p
  (none, p, locals)

/-- The `.then` continuation of `switchNode`'s re-join: pause if the session
was paused before the migration (a no-op in practice because the session was
just marked not playing), replay the captured track from the advanced
position, emit `reconnect`, and re-register the session in the players map. -/
def switchNodeOnSuccess (resolved : P) (locals : SNLocals) : Option P × P :=
  let p := if locals.paused then playerPause resolved else resolved
  let p := playerPlay p locals.track (some locals.position)
  let p := { p with reconnectEmits := p.reconnectEmits + 1 }
  (some p, p)

/-- The `.catch` continuation of `switchNode`'s re-join: disconnect the
session entirely (it stays deleted from the players map). -/
def switchNodeOnFailure (p : P) : Option P × P :=
  (none, playerDisconnect p)

/-- A whole migration: the synchronous part, then — once the re-join settles
— the success continuation applied to the same session re-pointed at the
newly selected node (host `newHost`, draining state `newDraining`), or the
failure continuation.  Returns the players-map entry for the guild and the
session's final state. -/
def switchNodeRun (p : P) (leave : Bool) (thr : Option Int) (success : Bool)
    (newHost : String) (newDraining : Bool) : Option P × P :=
  let r := switchNodeStart p leave thr
  let p1 := r.2.1
  let locals := r.2.2
  if success then
    switchNodeOnSuccess { p1 with nodeHost := newHost, nodeDraining := newDraining } locals
  else switchNodeOnFailure p1

/-- A concrete session for the C9 scenario: one attached `end` listener
(id 7), a track playing at position 30000. -/
def exMigrationPlayer : P :=
  { mkPlayer "g9" (some "c9") "h9" false 2 with
    endListeners := [7],
    track := some "trk",
    playing := true,
    statePosition := some 30000 }

/-- C9 counterexample: immediately after a successful migration the stashed
`end` listener is not re-attached — the listener list is empty, the restore
only happens when the next `end` event fires — refuting the claim that a
successful migration restores the stashed end-listeners (the other success
steps do happen: the track is replayed from 30000+2000 ms, `reconnect` is
emitted once and the session is re-registered). -/
theorem switchNode_listeners_not_restored_at_success :
    exMigrationPlayer.endListeners = [7] ∧
    (switchNodeRun exMigrationPlayer true none true "h10" false).2.endListeners = [] ∧
    (emitEnd (switchNodeRun exMigrationPlayer true none true "h10" false).2).endListeners =
      [7] ∧
    (switchNodeRun exMigrationPlayer true none true "h10" false).2.sent =
      [.play "g9" (some "trk") (some 32000)] ∧
    (switchNodeRun exMigrationPlayer true none true "h10" false).2.reconnectEmits = 1 := by
  refine ⟨rfl, rfl, rfl, ?_, rfl⟩
  decide

/-- C9 amended: a migration captures the session's guild, channel, track,
pause flag and advanced position (pre-migration position, 0 when absent,
plus the reconnect threshold, 2000 ms by default), detaches and stashes the
`end` listeners behind a one-shot restore hook, deletes the session from the
active map, marks it not playing, and sends a leave voice-state update
exactly when `leave` is set; on success it replays the pre-migration track
at the advanced position on the new node, emits `reconnect`, and
re-registers the session — the stashed `end` listeners are not yet
re-attached at that point, they return on the next `end` emission; on
failure it disconnects the session entirely and the session stays out of
the map.  The hypothesis `p.sendQueue = []` holds of every reachable player
state, since the send queue provably never becomes non-empty. -/
theorem switchNode_migration_behavior :
    ∀ (p : P) (leave : Bool) (thr : Option Int) (h : String), p.sendQueue = [] →
      ((switchNodeStart p leave thr).1 = none ∧
        (switchNodeStart p leave thr).2.2.track = p.track ∧
        (switchNodeStart p leave thr).2.2.channelId = p.channelId ∧
        (switchNodeStart p leave thr).2.2.guildId = p.guildId ∧
        (switchNodeStart p leave thr).2.2.paused = p.paused ∧
        (switchNodeStart p leave thr).2.2.position =
          p.statePosition.getD 0 + thr.getD 2000 ∧
        (switchNodeStart p leave thr).2.1.playing = false ∧
        (switchNodeStart p leave thr).2.1.endListeners = [] ∧
        (switchNodeStart p leave thr).2.1.shardSent =
          p.shardSent ++ (if leave then [none] else [])) ∧
      ((switchNodeRun p leave thr true h false).1 =
          some (switchNodeRun p leave thr true h false).2 ∧
        (switchNodeRun p leave thr true h false).2.sent =
          (switchNodeStart p leave thr).2.1.sent ++
            [.play p.guildId p.track (some (p.statePosition.getD 0 + thr.getD 2000))] ∧
        (switchNodeRun p leave thr true h false).2.track = p.track ∧
        (switchNodeRun p leave thr true h false).2.reconnectEmits = p.reconnectEmits + 1 ∧
        (switchNodeRun p leave thr true h false).2.endListeners = [] ∧
        (emitEnd (switchNodeRun p leave thr true h false).2).endListeners =
          p.pendingEndRestore.flatten ++ p.endListeners) ∧
      ((switchNodeRun p leave thr false h false).1 = none ∧
        (switchNodeRun p leave thr false h false).2.disconnectEmits =
          p.disconnectEmits + 1) := by
  intro p leave thr h hq
  refine ⟨⟨?_, ?_, ?_, ?_, ?_, ?_, ?_, ?_, ?_⟩, ⟨?_, ?_, ?_, ?_, ?_, ?_⟩, ?_, ?_⟩
  all_goals
    cases leave <;> cases hpa : p.paused <;>
      simp [switchNodeRun, switchNodeStart, switchNodeOnSuccess, switchNodeOnFailure,
        emitEnd, updateVoiceState, playerPause, playerPlay, playerDisconnect,
        playerDisconnectRaw, playerResume, setPause, nodeSend, playerStop, queueEvent,
        sendEvent, hq, hpa]

/-- Witness for `switchNode_migration_behavior` at a concrete session: a
successful migration of `exMigrationPlayer` emits exactly one `reconnect`. -/
theorem switchNode_migration_behavior_witness :
    (switchNodeRun exMigrationPlayer false none true "hw" false).2.reconnectEmits =
      exMigrationPlayer.reconnectEmits + 1 :=
  (switchNode_migration_behavior exMigrationPlayer false none "hw" rfl).2.1.2.2.2.1

end ErisLavalink
